import Mathlib

/-!
Verification of the torii indexing engine against its specification.

The definitions below are a shallow embedding of the Rust sources:
`crates/indexer/src/engine.rs`, `crates/processors/src/processors/controller.rs`,
`crates/processors/src/processors/store_del_record.rs`,
`crates/sqlite/sqlite/src/erc.rs`,
`crates/grpc/server/src/subscriptions/event.rs` and
`crates/grpc/server/src/subscriptions/entity.rs`.
Field elements (`Felt`) are modelled as natural numbers; machine strings are
modelled as Lean `String`/`List Char`; fallible code returns `Option`/`Except`.
-/

/-- A Starknet field element, modelled as a natural number. -/
abbrev Felt := Nat

/- ### Rust hexadecimal formatting

`format!("{:x}")` renders lowercase minimal hex digits; the `#` alternate flag
prepends `0x`; a `0N` width zero-pads between the `0x` prefix and the digits up
to a total width of `N`. -/

/-- The lowercase hex digit character for `n < 16`. -/
def hexDigit (n : Nat) : Char :=
  if n < 10 then Char.ofNat (48 + n) else Char.ofNat (87 + n)

/-- Minimal lowercase hex digits of `n`, most significant first, in front of
`acc`; `fuel` bounds the recursion depth (structural, so the kernel can
evaluate it). -/
def hexCharsCore : Nat → Nat → List Char → List Char
  | 0, _, acc => acc
  | fuel + 1, n, acc =>
    if n < 16 then hexDigit n :: acc
    else hexCharsCore fuel (n / 16) (hexDigit (n % 16) :: acc)

/-- Minimal lowercase hex digits of `n`, most significant first. -/
def hexChars (n : Nat) : List Char := hexCharsCore (n + 1) n []

/-- Reference version of `hexChars` by well-founded recursion on `n`,
used for proofs. -/
def hexCharsRec (n : Nat) : List Char :=
  if _h : n < 16 then [hexDigit n]
  else hexCharsRec (n / 16) ++ [hexDigit (n % 16)]
termination_by n
decreasing_by exact Nat.div_lt_self (by omega) (by omega)

/-- Rust `format!` with `{:#0Wx}` (alternate hex, zero-padded to total width
`width`, the `0x` prefix included in the width); `{:#x}` is `width = 0`. -/
def rustAltHexChars (width n : Nat) : List Char :=
  '0' :: 'x' :: (List.replicate (width - ((hexChars n).length + 2)) '0' ++ hexChars n)

/-- Rust `format!("{:#x}", n)` as a string. -/
def rustAltHex (n : Nat) : String :=
  String.mk (rustAltHexChars 0 n)

/-- The event id built in `process_transaction_with_events` and
`process_transaction_with_receipt` (engine.rs):
`format!("{:#064x}:{:#x}:{:#04x}", block_number, transaction_hash, event_idx)`. -/
def event_id (block_number : Nat) (transaction_hash : Felt) (event_idx : Nat) : String :=
  String.mk (rustAltHexChars 64 block_number ++ [':'] ++
    rustAltHexChars 0 transaction_hash ++ [':'] ++ rustAltHexChars 4 event_idx)

/-- The event id as claim C1 words it: 64 zero-padded hex digits of the block,
a colon, minimal hex of the transaction hash, a colon, 4 zero-padded hex digits
of the index, with no `0x` prefixes. -/
def claimed_event_id (block_number : Nat) (transaction_hash : Felt) (event_idx : Nat) : String :=
  String.mk ((List.replicate (64 - (hexChars block_number).length) '0' ++ hexChars block_number)
    ++ [':'] ++ hexChars transaction_hash ++ [':'] ++
    (List.replicate (4 - (hexChars event_idx).length) '0' ++ hexChars event_idx))

/-- The numeric value of a hex digit character. -/
def hexDigitVal (c : Char) : Nat :=
  if c.toNat ≤ 57 then c.toNat - 48 else c.toNat - 87

/-- The value of a big-endian list of hex digit characters. -/
def hexValChars (l : List Char) : Nat :=
  l.foldl (fun a c => 16 * a + hexDigitVal c) 0

/- ### Fetch stage (engine.rs `fetch_data` / `fetch_range`) -/

/-- A Starknet block id, as used in event filters and block queries. -/
inductive BlockId where
  | number (n : Nat)
  | latest
  | pending
deriving DecidableEq, Repr

/-- The `EventFilter` built in `fetch_range`. -/
structure EventFilter where
  from_block : Option BlockId
  to_block : Option BlockId
  address : Option Felt
deriving DecidableEq, Repr

/-- The `ResultPageRequest` part of a get_events request. -/
structure ResultPageRequest where
  continuation_token : Option String
  chunk_size : Nat
deriving DecidableEq, Repr

/-- The full filter of a get_events request. -/
structure EventFilterWithPage where
  event_filter : EventFilter
  result_page_request : ResultPageRequest
deriving DecidableEq, Repr

/-- `fetch_data`: `let from = cursors.head.unwrap_or(self.config.world_block)`. -/
def fetch_from (head : Option Nat) (world_block : Nat) : Nat :=
  head.getD world_block

/-- `fetch_data`: `let to = latest_block.block_number.min(from + self.config.blocks_chunk_size)`. -/
def fetch_to (latest fromBlock blocks_chunk_size : Nat) : Nat :=
  min latest (fromBlock + blocks_chunk_size)

/-- `fetch_data`, inside the `from < latest` branch: the shadowing
`let from = if from == 0 { from } else { from + 1 }` applied before
`fetch_range` is called. -/
def range_start (fromBlock : Nat) : Nat :=
  if fromBlock = 0 then fromBlock else fromBlock + 1

/-- `fetch_range`: the initial get_events batch request built for every
indexed contract (one request per contract, paired with its address). -/
def event_requests (contracts : List Felt) (fromBlock events_chunk_size : Nat) :
    List (Felt × EventFilterWithPage) :=
  contracts.map (fun c =>
    (c, ⟨⟨some (BlockId.number fromBlock), some BlockId.latest, some c⟩,
      ⟨none, events_chunk_size⟩⟩))

/-- `fetch_data`, range branch: the `(from, to, initial requests)` the engine
computes from the cursors; `none` when `from ≥ latest` (no range is fetched). -/
def fetch_data_range_plan (world_block blocks_chunk_size events_chunk_size : Nat)
    (contracts : List Felt) (head : Option Nat) (latest : Nat) :
    Option (Nat × Nat × List (Felt × EventFilterWithPage)) :=
  let fromBlock := fetch_from head world_block
  let toBlock := fetch_to latest fromBlock blocks_chunk_size
  if fromBlock < latest then
    some (fromBlock, toBlock,
      event_requests contracts (range_start fromBlock) events_chunk_size)
  else none

/- ### Engine loop backoff (engine.rs `start`) -/

/-- One failed tick's backoff update, in whole seconds:
`sleep(backoff_delay); if backoff_delay < max_backoff_delay { backoff_delay *= 2 }`
with `max_backoff_delay = 60`. -/
def update_backoff (b : Nat) : Nat :=
  if b < 60 then b * 2 else b

/-- The backoff delay after `n` consecutive failed ticks, starting from
`backoff_delay = 1` second. -/
def backoff_after : Nat → Nat
  | 0 => 1
  | n + 1 => update_backoff (backoff_after n)

/- ### Controller processor (controller.rs) -/

/-- A Starknet event (`starknet::core::types::Event`). -/
structure Event where
  from_address : Felt
  keys : List Felt
  data : List Felt
deriving DecidableEq, Repr

/-- The 22-felt Cartridge magic sequence: the ASCII bytes of
`https://x.cartridge.gg`. -/
def CARTRIDGE_MAGIC : List Felt :=
  [0x68, 0x74, 0x74, 0x70, 0x73, 0x3a, 0x2f, 0x2f, 0x78, 0x2e, 0x63,
   0x61, 0x72, 0x74, 0x72, 0x69, 0x64, 0x67, 0x65, 0x2e, 0x67, 0x67]

/-- The 32 big-endian bytes of a felt (`Felt::to_bytes_be`). -/
def feltBytesBE (f : Felt) : List Nat :=
  (List.range 32).map (fun i => f / 256 ^ (31 - i) % 256)

/-- starknet-rs `parse_cairo_short_string`: the empty string for 0; fails when
the top byte is nonzero (value wider than 31 bytes) or when a zero byte
follows earlier content; otherwise the nonzero bytes read as characters. -/
def parse_cairo_short_string (f : Felt) : Option String :=
  if f = 0 then some ""
  else if 0 < (feltBytesBE f).headD 0 then none
  else
    (feltBytesBE f).tail.foldl
      (fun acc b =>
        match acc with
        | none => none
        | some s =>
          if b = 0 then (if s = "" then some s else none)
          else some (s.push (Char.ofNat b)))
      (some "")

/-- The record written by `db.add_controller(&username, &format!("\x7baddress:#x\x7d"),
block_timestamp)`. -/
structure Controller where
  username : String
  address : String
  block_timestamp : Nat
deriving DecidableEq, Repr

/-- `ControllerProcessor::process` (controller.rs): `address = data[0]`,
`calldata = data[5..]`; requires `calldata.len() ≥ 25`, `calldata[2] = 22` and
`calldata[3..25] = CARTRIDGE_MAGIC`, then records the controller whose
username is the short-string parse of the last data felt; returns the
recorded controller, `none` when the event is silently ignored, and an error
when the username felt fails short-string parsing. -/
def controller_process (e : Event) (block_timestamp : Nat) :
    Except Unit (Option Controller) :=
  if (e.data.drop 5).length < 25 then .ok none
  else if (e.data.drop 5).getD 2 0 ≠ 22 then .ok none
  else if ((e.data.drop 5).drop 3).take 22 ≠ CARTRIDGE_MAGIC then .ok none
  else
    match parse_cairo_short_string (e.data.getLastD 0) with
    | none => .error ()
    | some username =>
      .ok (some ⟨username, rustAltHex (e.data.headD 0), block_timestamp⟩)

/- ### StoreDelRecord processor (store_del_record.rs) -/

/-- A 64-bit streaming hasher (Rust `DefaultHasher`), kept abstract: a state
type, the initial state, absorbing one felt (`Felt::hash`), and `finish`. -/
structure FeltHasher (σ : Type) where
  init : σ
  write : σ → Felt → σ
  finish : σ → Nat

/-- `StoreDelRecordProcessor::task_identifier`: hash `keys[1]` then `keys[2]`
into a fresh hasher and finish. -/
def store_del_record_task_identifier {σ : Type} (H : FeltHasher σ) (e : Event) : Nat :=
  H.finish (H.write (H.write H.init (e.keys.getD 1 0)) (e.keys.getD 2 0))

/-- `StoreDelRecordProcessor::task_dependencies`: the one-element list holding
the hash of `keys[1]` (the model selector). -/
def store_del_record_task_dependencies {σ : Type} (H : FeltHasher σ) (e : Event) :
    List Nat :=
  [H.finish (H.write H.init (e.keys.getD 1 0))]

/-- Modelled from the spec: `RegisterModel` produces task id
`hash(model_selector)` and has no deps (`register_model.rs` is not among the
provided sources). -/
def register_model_task_identifier {σ : Type} (H : FeltHasher σ) (model_selector : Felt) :
    Nat :=
  H.finish (H.write H.init model_selector)

/- ### Event page filtering (engine.rs `fetch_events`) -/

/-- An emitted event as returned by get_events. -/
structure EmittedEvent where
  block_number : Nat
  transaction_hash : Felt
  keys : List Felt
  data : List Felt
deriving DecidableEq, Repr

/-- One page of a get_events response. -/
structure EventsPage where
  events : List EmittedEvent
  continuation_token : Option String
deriving DecidableEq, Repr

/-- The per-page event loop of `fetch_events`: `orig` is the contract's
cursor `last_contract_tx`, the `Option Felt` argument the mutable
`last_contract_tx_tmp` skip state. Events beyond `to` are dropped first;
while the skip state is set, events are dropped until the cursor transaction
is seen; every event of the cursor transaction itself is also dropped. -/
def page_filter_go (orig : Option Felt) (toB : Nat) :
    Option Felt → List EmittedEvent → List EmittedEvent
  | _, [] => []
  | tmp, e :: rest =>
    if toB < e.block_number then page_filter_go orig toB tmp rest
    else
      match tmp with
      | some l =>
        if e.transaction_hash ≠ l then page_filter_go orig toB (some l) rest
        else page_filter_go orig toB none rest
      | none =>
        match orig with
        | some l =>
          if e.transaction_hash = l then page_filter_go orig toB none rest
          else e :: page_filter_go orig toB none rest
        | none => e :: page_filter_go orig toB none rest

/-- `fetch_events` for one contract, over the pages its provider returns in
successive rounds: each page is filtered with the skip state re-initialised
from the cursor map, and a continuation round happens only when the page has
a continuation token, its last event's block is below `to`, and the page is
non-empty. -/
def fetch_events_pages (cursor : Option Felt) (toB : Nat) :
    List EventsPage → List EmittedEvent
  | [] => []
  | page :: rest =>
    page_filter_go cursor toB cursor page.events ++
      (if page.continuation_token.isSome
          ∧ ((page.events.getLast?.map EmittedEvent.block_number).getD 0 < toB)
          ∧ page.events ≠ []
       then fetch_events_pages cursor toB rest
       else [])

/-- The filter claim C5 describes over the whole event stream: drop events
above `to`; with a cursor, additionally drop everything before the first
occurrence of the cursor transaction and every event of the cursor
transaction itself; keep all remaining events. -/
def claimed_event_filter (cursor : Option Felt) (toB : Nat)
    (events : List EmittedEvent) : List EmittedEvent :=
  let kept := events.filter (fun e => e.block_number ≤ toB)
  match cursor with
  | none => kept
  | some l =>
    (kept.dropWhile (fun e => e.transaction_hash ≠ l)).filter
      (fun e => e.transaction_hash ≠ l)

/- ### Event subscriptions (grpc subscriptions/event.rs) -/

/-- A bounded mpsc channel endpoint: capacity, queued messages, and whether
the receiver side is gone. -/
structure Chan (α : Type) where
  capacity : Nat
  queue : List α
  closed : Bool
deriving DecidableEq, Repr

/-- The error of a failed tokio `try_send`. -/
inductive TrySendErr where
  | full
  | closed
deriving DecidableEq, Repr

/-- tokio `try_send`: fails with `Closed` when the receiver is gone, with
`Full` when the buffer is at capacity, otherwise enqueues. -/
def try_send {α : Type} (ch : Chan α) (m : α) : Chan α × Option TrySendErr :=
  if ch.closed then (ch, some .closed)
  else if ch.capacity ≤ ch.queue.length then (ch, some .full)
  else ({ ch with queue := ch.queue ++ [m] }, none)

/-- A torii event row, its keys/data/transaction hash already split on the
felt delimiter and parsed (the parse happens before the subscriber loop). -/
structure EventRow where
  keys : List Felt
  data : List Felt
  transaction_hash : Felt
deriving DecidableEq, Repr

/-- The protobuf event sent to subscribers: keys, data and transaction hash
as 32-byte big-endian blobs. -/
structure ProtoEvent where
  keys : List (List Nat)
  data : List (List Nat)
  transaction_hash : List Nat
deriving DecidableEq, Repr

/-- The `SubscribeEventsResponse` payload built in `process_event`. -/
def mk_event_response (ev : EventRow) : ProtoEvent :=
  ⟨ev.keys.map feltBytesBE, ev.data.map feltBytesBE, feltBytesBE ev.transaction_hash⟩

/-- An event subscriber: its `KeysClause` list (clauses kept abstract in the
type `K`; `match_keys` is likewise a parameter below, its pattern grammar
lives outside the provided sources) and the bounded response channel. -/
structure EventSubscriber (K : Type) where
  keys : List K
  sender : Chan ProtoEvent
deriving DecidableEq, Repr

/-- One iteration of the subscriber loop in `Service::process_event`: skip
when `match_keys` rejects; otherwise `try_send` the response, recording the
subscriber id for removal when the channel is full or closed. -/
def deliver_event {K : Type} (match_keys : List Felt → List K → Bool) (ev : EventRow)
    (entry : Nat × EventSubscriber K) : (Nat × EventSubscriber K) × Option Nat :=
  if match_keys ev.keys entry.2.keys = false then (entry, none)
  else
    match try_send entry.2.sender (mk_event_response ev) with
    | (ch, none) => ((entry.1, ⟨entry.2.keys, ch⟩), none)
    | (_, some _) => (entry, some entry.1)

/-- `Service::process_event`: deliver to every subscriber under the read
lock, then remove every subscriber whose channel was full or closed. -/
def process_event {K : Type} (match_keys : List Felt → List K → Bool)
    (subs : List (Nat × EventSubscriber K)) (ev : EventRow) :
    List (Nat × EventSubscriber K) :=
  let stepped := subs.map (deliver_event match_keys ev)
  let closed_stream := stepped.filterMap Prod.snd
  (stepped.map Prod.fst).filter (fun entry => !(closed_stream.contains entry.1))

/- ### Token metadata fetching (sqlite erc.rs) -/

/-- The error kinds of `TokenMetadataError` that the metadata path can hit. -/
inductive TokenMetadataError where
  | parse
  | http
  | ipfs
  | dataUrl
  | invalidMimeType (mime : String)
  | invalidBase64
  | unsupportedUriScheme (uri : String)
deriving DecidableEq, Repr

/-- The outcome of deserializing a raw `token_uri` call result: a Cairo
`ByteArray` (with its UTF-8 decode outcome), an `Array<Felt>` of short
strings (with its joined parse outcome), or neither. -/
inductive UriDeser where
  | byteArray (utf8 : Option String)
  | feltArray (parsed : Option String)
  | neither
deriving DecidableEq, Repr

/-- The external collaborators of a metadata fetch, kept as explicit data:
the three provider calls tried by `fetch_token_uri`, the cainome
deserializer, network fetch results, the JSON parser (returning the
serde-rendered string), and the data-URL processor (MIME type and base64
decode result). -/
structure MetadataWorld where
  call_token_uri : Option (List Felt)
  call_tokenURI : Option (List Felt)
  call_uri : Option (List Felt)
  deserialize : List Felt → UriDeser
  http_content : String → Option String
  ipfs_content : String → Option String
  parse_json : String → Option String
  data_url : String → Option (String × Option String)
  sanitize : String → String

/-- Rust `str::replace`, by fuel-bounded scan (the fuel, the input length,
suffices because every step consumes at least one character for a non-empty
pattern). -/
def replace_chars_core (pat rep : List Char) : Nat → List Char → List Char
  | _, [] => []
  | 0, l => l
  | fuel + 1, c :: rest =>
    if pat.isPrefixOf (c :: rest) then
      rep ++ replace_chars_core pat rep fuel ((c :: rest).drop pat.length)
    else c :: replace_chars_core pat rep fuel rest

/-- Rust `s.replace(pat, rep)` on strings. -/
def rust_replace (s pat rep : String) : String :=
  String.mk (replace_chars_core pat.data rep.data s.data.length s.data)

/-- Rust `format!("{:064x}", token_id)`: 64 zero-padded hex digits, no
prefix. -/
def rust_pad_hex64 (n : Nat) : String :=
  String.mk (List.replicate (64 - (hexChars n).length) '0' ++ hexChars n)

/-- Rust `str::starts_with`. -/
def str_starts_with (s pre : String) : Bool :=
  pre.data.isPrefixOf s.data

/-- `fetch_token_uri` (erc.rs): try the `token_uri`, `tokenURI` and `uri`
entry points in order; when all fail, degrade to the empty string. Otherwise
decode the raw words as a ByteArray or an `Array<Felt>` of short strings
(an undecodable result degrades to the empty string; a decode that fails
UTF-8 or short-string parsing is an error), then substitute the ERC-1155
`\x7bid\x7d` marker with the token id as 64 zero-padded hex digits. -/
def fetch_token_uri (w : MetadataWorld) (token_id : Nat) :
    Except TokenMetadataError String :=
  match w.call_token_uri <|> w.call_tokenURI <|> w.call_uri with
  | none => .ok ""
  | some raw =>
    match w.deserialize raw with
    | .byteArray none => .error .parse
    | .byteArray (some s) => .ok (rust_replace s "\x7bid\x7d" (rust_pad_hex64 token_id))
    | .feltArray none => .error .parse
    | .feltArray (some s) => .ok (rust_replace s "\x7bid\x7d" (rust_pad_hex64 token_id))
    | .neither => .ok (rust_replace "" "\x7bid\x7d" (rust_pad_hex64 token_id))

/-- `fetch_metadata` (erc.rs): dispatch on the URI scheme (`http`/`https`
share the `http` prefix); http and ipfs content is fetched then JSON-parsed;
a data URI is processed (after the `#` → `%23` workaround), must carry the
`application/json` MIME type, must base64-decode, and its sanitized content
must parse as JSON; any other scheme is unsupported. -/
def fetch_metadata (w : MetadataWorld) (token_uri : String) :
    Except TokenMetadataError String :=
  if str_starts_with token_uri "http" then
    match w.http_content token_uri with
    | none => .error .http
    | some content =>
      match w.parse_json content with
      | none => .error .parse
      | some j => .ok j
  else if str_starts_with token_uri "ipfs" then
    match w.ipfs_content (String.mk (token_uri.data.drop 7)) with
    | none => .error .ipfs
    | some content =>
      match w.parse_json content with
      | none => .error .parse
      | some j => .ok j
  else if str_starts_with token_uri "data" then
    match w.data_url (rust_replace token_uri "#" "%23") with
    | none => .error .dataUrl
    | some (mime, dec) =>
      if mime ≠ "application/json" then .error (.invalidMimeType mime)
      else
        match dec with
        | none => .error .invalidBase64
        | some decoded =>
          match w.parse_json (w.sanitize decoded) with
          | none => .error .parse
          | some j => .ok j
  else .error (.unsupportedUriScheme token_uri)

/-- `fetch_token_metadata` (erc.rs): an empty URI yields empty metadata;
a failed `fetch_metadata` degrades to empty metadata with a warning; a
successful one is rendered back to a string. -/
def fetch_token_metadata (w : MetadataWorld) (token_id : Nat) :
    Except TokenMetadataError String :=
  match fetch_token_uri w token_id with
  | .error e => .error e
  | .ok token_uri =>
    if token_uri = "" then .ok ""
    else
      match fetch_metadata w token_uri with
      | .ok metadata => .ok metadata
      | .error _ => .ok ""

/-- A metadata world whose token URI is a data URI with a non-JSON MIME
type: the `name` call succeeds, the raw words decode to `data:junk`, and the
data-URL processor reports MIME `text/plain`. -/
def metadata_world_bad_mime : MetadataWorld :=
  ⟨some [1], none, none, fun _ => .byteArray (some "data:junk"),
    fun _ => none, fun _ => none, fun _ => none,
    fun _ => some ("text/plain", none), fun s => s⟩

/- ### Entity subscriptions (grpc subscriptions/entity.rs) -/

/-- A torii `OptimisticEntity`: id and keys already parsed, timestamps as
epoch seconds, the updated model kept abstract in the type `M`. -/
structure OptimisticEntity (M : Type) where
  id : Felt
  keys : List Felt
  updated_model : Option M
  deleted : Bool
  event_id : String
  executed_at : Nat
  created_at : Nat
  updated_at : Nat
deriving DecidableEq, Repr

/-- The protobuf entity payload of a `SubscribeEntityResponse`. -/
structure ProtoEntity (M : Type) where
  hashed_keys : List Nat
  models : List M
  event_id : String
  executed_at_timestamp : Nat
  created_at_timestamp : Nat
  updated_at_timestamp : Nat
  is_deleted : Bool
deriving DecidableEq, Repr

/-- A `SubscribeEntityResponse`. -/
structure SubscribeEntityResponse (M : Type) where
  entity : Option (ProtoEntity M)
  subscription_id : Nat
deriving DecidableEq, Repr

/-- An entity subscriber: optional clause (kept abstract in the type `C`;
`match_entity` is likewise a parameter below) and the bounded response
channel. -/
structure EntitiesSubscriber (C M : Type) where
  clause : Option C
  sender : Chan (SubscribeEntityResponse M)
deriving DecidableEq, Repr

/-- tokio bounded `send().await`: waits for room (capacity never fails it)
and errs only when the receiver is gone. -/
def send_await {α : Type} (ch : Chan α) (m : α) : Chan α × Bool :=
  if ch.closed then (ch, false) else ({ ch with queue := ch.queue ++ [m] }, true)

/-- The response built in `process_entity_update`: for a deleted entity, the
hashed keys as 32 big-endian bytes, an empty model list and
`is_deleted = true`; otherwise the unwrapped updated model and
`is_deleted = false`; timestamps and event id copied from the entity. -/
def mk_entity_response {M : Type} [Inhabited M] (ent : OptimisticEntity M) (idx : Nat) :
    SubscribeEntityResponse M :=
  if ent.deleted then
    ⟨some ⟨feltBytesBE ent.id, [], ent.event_id, ent.executed_at, ent.created_at,
      ent.updated_at, true⟩, idx⟩
  else
    ⟨some ⟨feltBytesBE ent.id, [ent.updated_model.get!], ent.event_id, ent.executed_at,
      ent.created_at, ent.updated_at, false⟩, idx⟩

/-- One iteration of the subscriber loop in `Service::process_entity_update`:
skip when a clause is present and `match_entity` rejects; otherwise await the
send, recording the subscriber id for removal when the channel is closed. -/
def deliver_entity {C M : Type} [Inhabited M]
    (match_entity : Felt → List Felt → Option M → C → Bool)
    (ent : OptimisticEntity M) (entry : Nat × EntitiesSubscriber C M) :
    (Nat × EntitiesSubscriber C M) × Option Nat :=
  if (match entry.2.clause with
      | some cl => match_entity ent.id ent.keys ent.updated_model cl
      | none => true) = false then (entry, none)
  else
    match send_await entry.2.sender (mk_entity_response ent entry.1) with
    | (ch, true) => ((entry.1, ⟨entry.2.clause, ch⟩), none)
    | (_, false) => (entry, some entry.1)

/-- `Service::process_entity_update`: deliver to every subscriber under the
read lock, then remove every subscriber whose channel was closed. -/
def process_entity_update {C M : Type} [Inhabited M]
    (match_entity : Felt → List Felt → Option M → C → Bool)
    (subs : List (Nat × EntitiesSubscriber C M)) (ent : OptimisticEntity M) :
    List (Nat × EntitiesSubscriber C M) :=
  let stepped := subs.map (deliver_entity match_entity ent)
  let closed_stream := stepped.filterMap Prod.snd
  (stepped.map Prod.fst).filter (fun entry => !(closed_stream.contains entry.1))

/- ### ERC balance cache (sqlite erc.rs) -/

/-- The fixed felt-list delimiter of the sqlite layer. -/
def SQL_FELT_DELIMITER : String := "/"

/-- Modelled from the spec: `felt_to_sql_string` renders a felt as `0x`-hex
(`utils.rs` is not among the provided sources; the spec fixes the ERC-20
`token_id` as the hex of the contract address). -/
def felt_to_sql_string (f : Felt) : String := rustAltHex f

/-- Modelled from the spec: `felts_to_sql_string` joins felts with the fixed
delimiter, leaving a trailing delimiter (the in-source comment shows the
ERC-20 balance key as `from_address/contract_address/`). -/
def felts_to_sql_string : List Felt → String
  | [] => ""
  | f :: rest => felt_to_sql_string f ++ SQL_FELT_DELIMITER ++ felts_to_sql_string rest

/-- Modelled from the spec: `felt_and_u256_to_sql_string` is
`"\x7bcontract_address_hex\x7d:\x7bu256_id_decimal\x7d"`. -/
def felt_and_u256_to_sql_string (contract : Felt) (token_id : Nat) : String :=
  felt_to_sql_string contract ++ ":" ++ toString token_id

/-- The in-memory balance-delta cache, as an association list from key
strings to signed deltas (`HashMap<String, I256>`). -/
abbrev ErcCache := List (String × Int)

/-- `erc_cache.entry(key).or_default() += v`: add `v` to the existing entry
or insert a fresh entry holding `v`. -/
def cache_add : ErcCache → String → Int → ErcCache
  | [], k, v => [(k, v)]
  | e :: rest, k, v =>
    if e.1 = k then (e.1, e.2 + v) :: rest else e :: cache_add rest k v

/-- The delta recorded for a key (`HashMap::get`). -/
def cache_lookup : ErcCache → String → Option Int
  | [], _ => none
  | e :: rest, k => if e.1 = k then some e.2 else cache_lookup rest k

/-- The balance-delta block of `handle_erc20_transfer`: debit the sender
unless it is the zero address, credit the recipient unless it is the zero
address; keys are `address/contract_address/`. -/
def handle_erc20_transfer_cache (contract from_address to_address : Felt)
    (amount : Int) (c : ErcCache) : ErcCache :=
  let c1 := if from_address ≠ 0 then
      cache_add c (felts_to_sql_string [from_address, contract]) (-amount)
    else c
  if to_address ≠ 0 then
    cache_add c1 (felts_to_sql_string [to_address, contract]) amount
  else c1

/-- The balance-delta block of `handle_nft_transfer`: same zero-address
guards; keys are `address/contract_address:token_id`. -/
def handle_nft_transfer_cache (contract from_address to_address : Felt)
    (token_id : Nat) (amount : Int) (c : ErcCache) : ErcCache :=
  let c1 := if from_address ≠ 0 then
      cache_add c (felt_to_sql_string from_address ++ SQL_FELT_DELIMITER ++
        felt_and_u256_to_sql_string contract token_id) (-amount)
    else c
  if to_address ≠ 0 then
    cache_add c1 (felt_to_sql_string to_address ++ SQL_FELT_DELIMITER ++
      felt_and_u256_to_sql_string contract token_id) amount
  else c1

/- ### Helper lemmas on hex rendering -/

theorem hexCharsCore_eq_rec (fuel : Nat) : ∀ n acc, n < fuel →
    hexCharsCore fuel n acc = hexCharsRec n ++ acc := by
  induction fuel with
  | zero => intro n acc h; omega
  | succ fuel ih =>
    intro n acc h
    rw [hexCharsCore, hexCharsRec]
    split
    · rfl
    · rename_i hlt
      have hdiv : n / 16 < fuel := by
        have hlt2 : n / 16 < n := Nat.div_lt_self (by omega) (by omega)
        omega
      rw [ih (n / 16) _ hdiv, List.append_assoc]
      rfl

theorem hexChars_eq_rec (n : Nat) : hexChars n = hexCharsRec n := by
  rw [hexChars, hexCharsCore_eq_rec (n + 1) n [] (by omega), List.append_nil]

theorem hexDigitVal_hexDigit (n : Nat) (h : n < 16) : hexDigitVal (hexDigit n) = n := by
  interval_cases n <;> decide

theorem hexChars_ne_nil (n : Nat) : hexChars n ≠ [] := by
  rw [hexChars_eq_rec, hexCharsRec]
  split
  · simp
  · simp

theorem hexValChars_hexChars (n : Nat) : hexValChars (hexChars n) = n := by
  rw [hexChars_eq_rec]
  induction n using Nat.strong_induction_on with
  | _ n ih =>
    rw [hexCharsRec]
    split
    · rename_i h
      simp only [hexValChars, List.foldl_cons, List.foldl_nil]
      rw [hexDigitVal_hexDigit n h]
      omega
    · rename_i h
      have hlt : n / 16 < n := Nat.div_lt_self (by omega) (by omega)
      have := ih (n / 16) hlt
      simp only [hexValChars, List.foldl_append, List.foldl_cons, List.foldl_nil] at *
      rw [this, hexDigitVal_hexDigit (n % 16) (Nat.mod_lt _ (by omega))]
      omega

theorem hexValChars_replicate_zero_append (k : Nat) (l : List Char) :
    hexValChars (List.replicate k '0' ++ l) = hexValChars l := by
  induction k with
  | zero => simp
  | succ k ih =>
    simp only [List.replicate_succ, List.cons_append, hexValChars, List.foldl_cons] at *
    have h0 : (16 * 0 + hexDigitVal '0') = 0 := by decide
    rw [h0]
    exact ih

theorem hexChars_length_le (k : Nat) : ∀ n : Nat, 1 ≤ k → n < 16 ^ k → (hexChars n).length ≤ k := by
  induction k with
  | zero => intro n hk _; omega
  | succ k ih =>
    intro n _ hn
    rw [hexChars_eq_rec, hexCharsRec]
    split
    · simp
    · rename_i h
      have hdiv : n / 16 < 16 ^ k := by
        rw [Nat.div_lt_iff_lt_mul (by omega)]
        calc n < 16 ^ (k + 1) := hn
        _ = 16 ^ k * 16 := by ring
      have hk1 : 1 ≤ k := by
        by_contra hk
        have hk0 : k = 0 := by omega
        subst hk0
        simp at hdiv
        omega
      have := ih (n / 16) hk1 hdiv
      rw [hexChars_eq_rec] at this
      simp only [List.length_append, List.length_cons, List.length_nil]
      omega

theorem rustAltHexChars_decode (width n : Nat) :
    hexValChars ((rustAltHexChars width n).drop 2) = n := by
  simp only [rustAltHexChars, List.drop_succ_cons, List.drop_zero]
  rw [hexValChars_replicate_zero_append, hexValChars_hexChars]

theorem rustAltHexChars_length (width n : Nat) (h : (hexChars n).length + 2 ≤ width) :
    (rustAltHexChars width n).length = width := by
  simp only [rustAltHexChars, List.length_cons, List.length_append, List.length_replicate]
  omega

/- ### C1: theorems -/

/-- Claim C1 counterexample: at block 0, transaction hash 1, event index 0,
the event id built by the engine is not the claimed `0x`-free format: the code
emits `0x`-prefixed segments (`{:#064x}` pads the `0x` prefix into the 64-char
field), so the two strings differ, and the code's id does start with `0x`. -/
theorem event_id_not_claimed_format :
    event_id 0 1 0 ≠ claimed_event_id 0 1 0 ∧ (event_id 0 1 0).take 2 = "0x" := by
  constructor
  · decide
  · decide

/-- Claim C1 (amended): the event id is three colon-separated segments, each
starting with `0x`: the block number zero-padded to a total width of 64
characters (including the prefix), the transaction hash in minimal hex, and
the event index zero-padded to a total width of 4 characters; stripping each
`0x` prefix and reading the hex digits recovers the block number, the
transaction hash and the event index. -/
theorem event_id_amended (b t i : Nat) (hb : b < 16 ^ 62) (hi : i < 16 ^ 2) :
    (event_id b t i).data =
      rustAltHexChars 64 b ++ [':'] ++ rustAltHexChars 0 t ++ [':'] ++ rustAltHexChars 4 i ∧
    (rustAltHexChars 64 b).length = 64 ∧
    (rustAltHexChars 64 b).take 2 = ['0', 'x'] ∧
    hexValChars ((rustAltHexChars 64 b).drop 2) = b ∧
    (rustAltHexChars 0 t).take 2 = ['0', 'x'] ∧
    hexValChars ((rustAltHexChars 0 t).drop 2) = t ∧
    (rustAltHexChars 4 i).length = 4 ∧
    (rustAltHexChars 4 i).take 2 = ['0', 'x'] ∧
    hexValChars ((rustAltHexChars 4 i).drop 2) = i := by
  refine ⟨rfl, ?_, rfl, rustAltHexChars_decode 64 b, rfl, rustAltHexChars_decode 0 t,
    ?_, rfl, rustAltHexChars_decode 4 i⟩
  · apply rustAltHexChars_length
    have := hexChars_length_le 62 b (by omega) hb
    omega
  · apply rustAltHexChars_length
    have := hexChars_length_le 2 i (by omega) hi
    omega

/-- Claim C1 amended witness at block 3, transaction hash 5, event index 2. -/
theorem event_id_amended_witness :
    (event_id 3 5 2).data =
      rustAltHexChars 64 3 ++ [':'] ++ rustAltHexChars 0 5 ++ [':'] ++ rustAltHexChars 4 2 ∧
    (rustAltHexChars 64 3).length = 64 ∧
    (rustAltHexChars 64 3).take 2 = ['0', 'x'] ∧
    hexValChars ((rustAltHexChars 64 3).drop 2) = 3 ∧
    (rustAltHexChars 0 5).take 2 = ['0', 'x'] ∧
    hexValChars ((rustAltHexChars 0 5).drop 2) = 5 ∧
    (rustAltHexChars 4 2).length = 4 ∧
    (rustAltHexChars 4 2).take 2 = ['0', 'x'] ∧
    hexValChars ((rustAltHexChars 4 2).drop 2) = 2 :=
  event_id_amended 3 5 2 (by norm_num) (by norm_num)

/- ### C2: theorems -/

/-- Claim C2 counterexample: with `world_block = 0`, `blocks_chunk_size = 10240`,
`events_chunk_size = 1024`, one indexed contract `7`, `cursors.head = some 5`
and `latest = 10`, the engine computes `from = 5 < 10` but the issued get_events
filter starts at block 6, not at block 5: `fetch_data` shadows `from` with
`from + 1` (for nonzero `from`) before building the requests. -/
theorem fetch_data_filter_not_from_head :
    fetch_data_range_plan 0 10240 1024 [7] (some 5) 10 =
      some (5, 10, [(7, ⟨⟨some (BlockId.number 6), some BlockId.latest, some 7⟩,
        ⟨none, 1024⟩⟩)]) ∧
    BlockId.number 6 ≠ BlockId.number 5 := by
  constructor
  · rfl
  · decide

/-- Claim C2 (amended): `from = cursors.head ?? world_block`,
`to = min(latest, from + blocks_chunk_size)`, and when `from < latest` the
engine issues, for each indexed contract, one get_events request whose filter
starts at block `from` when `from = 0` and at block `from + 1` otherwise, ends
at the `Latest` tag, carries the contract address, and uses chunk size
`events_chunk_size`. -/
theorem fetch_data_plan_amended (w b e l : Nat) (cs : List Felt) (head : Option Nat)
    (h : fetch_from head w < l) :
    fetch_data_range_plan w b e cs head l =
      some (fetch_from head w, min l (fetch_from head w + b),
        cs.map (fun c =>
          (c, ⟨⟨some (BlockId.number (if fetch_from head w = 0 then fetch_from head w
                  else fetch_from head w + 1)),
              some BlockId.latest, some c⟩, ⟨none, e⟩⟩))) := by
  simp only [fetch_data_range_plan, fetch_to, event_requests, range_start, if_pos h]

/-- Claim C2 amended witness: head 5, latest 10, a single contract. -/
theorem fetch_data_plan_amended_witness :
    fetch_data_range_plan 0 10240 1024 [9] (some 5) 10 =
      some (fetch_from (some 5) 0, min 10 (fetch_from (some 5) 0 + 10240),
        [9].map (fun c =>
          (c, ⟨⟨some (BlockId.number (if fetch_from (some 5) 0 = 0 then fetch_from (some 5) 0
                  else fetch_from (some 5) 0 + 1)),
              some BlockId.latest, some c⟩, ⟨none, 1024⟩⟩))) :=
  fetch_data_plan_amended 0 10240 1024 10 [9] (some 5) (by decide)

/- ### C3: theorems -/

/-- Claim C3 counterexample: the doubling is guarded by `backoff < 60s`, not
clamped to 60s, so from 32s a failure raises the backoff to 64s: after six
consecutive failures the delay is 64s, which exceeds 60s and differs from the
claimed `min(2·32, 60) = 60`. -/
theorem backoff_exceeds_sixty :
    update_backoff 32 = 64 ∧ min (2 * 32) 60 = 60 ∧ update_backoff 32 ≠ min (2 * 32) 60 ∧
    backoff_after 6 = 64 ∧ ¬ backoff_after 6 ≤ 60 := by
  decide

/-- Claim C3 (amended): the backoff starts at 1 second and doubles after every
failed fetch or failed process while it is below 60 seconds; after `n`
consecutive failures it equals `min(2^n, 64)` seconds, so it never exceeds 64
seconds (it is capped at 64, not 60). -/
theorem backoff_after_min_pow (n : Nat) :
    backoff_after n = min (2 ^ n) 64 ∧ backoff_after n ≤ 64 := by
  have key : ∀ m : Nat, backoff_after m = min (2 ^ m) 64 := by
    intro m
    induction m with
    | zero => decide
    | succ m ih =>
      rcases Nat.lt_or_ge m 6 with hm | hm
      · interval_cases m <;> decide
      · have hge : (64 : Nat) ≤ 2 ^ m := by
          calc (64 : Nat) = 2 ^ 6 := by norm_num
          _ ≤ 2 ^ m := Nat.pow_le_pow_right (by omega) hm
        have hge2 : (64 : Nat) ≤ 2 ^ (m + 1) :=
          le_trans hge (Nat.pow_le_pow_right (by omega) (by omega))
        show update_backoff (backoff_after m) = _
        rw [ih, Nat.min_eq_right hge, update_backoff, if_neg (by omega),
          Nat.min_eq_right hge2]
  exact ⟨key n, by rw [key n]; exact Nat.min_le_right _ _⟩

/- ### C4: theorems -/

/-- Claim C4 counterexample: an event whose data at offset 3..25 equals the
22-felt Cartridge magic, yet `ControllerProcessor::process` records nothing:
the code checks the magic inside `calldata = data[5..]` (at data offset
8..30), and for this event `calldata[2] = 0x73 ≠ 22`, so it returns `Ok`
without recording. -/
theorem controller_magic_offset_cex :
    controller_process
      ⟨1, [1], [0xAAAA, 0, 0] ++ CARTRIDGE_MAGIC ++ [0, 0, 0, 0, 0]⟩ 7 = .ok none ∧
    ((([0xAAAA, 0, 0] ++ CARTRIDGE_MAGIC ++ [0, 0, 0, 0, 0] : List Felt).drop 3).take 22
      = CARTRIDGE_MAGIC) := by
  constructor
  · rfl
  · decide

/-- Claim C4 (amended): the magic is checked at offset 3..25 of
`calldata = data[5..]`, i.e. at data offset 8..30, additionally requiring
`calldata.len() ≥ 25` and the length marker `calldata[2] = 22`. When those
hold and the last data felt parses as a short string, `process` records the
controller `(username, data[0] formatted as 0x-hex, block timestamp)`; when
the magic does not match at the checked position, it returns `Ok` without
recording anything. -/
theorem controller_process_spec (e : Event) (ts : Nat) :
    (∀ u : String, 30 ≤ e.data.length →
      (e.data.drop 5).getD 2 0 = 22 →
      ((e.data.drop 5).drop 3).take 22 = CARTRIDGE_MAGIC →
      parse_cairo_short_string (e.data.getLastD 0) = some u →
      controller_process e ts = .ok (some ⟨u, rustAltHex (e.data.headD 0), ts⟩)) ∧
    (((e.data.drop 5).drop 3).take 22 ≠ CARTRIDGE_MAGIC →
      controller_process e ts = .ok none) := by
  constructor
  · intro u hlen hmark hmagic huser
    rw [controller_process]
    rw [if_neg (by simp only [List.length_drop]; omega)]
    rw [if_neg (by rw [hmark]; simp)]
    rw [if_neg (by rw [hmagic]; simp)]
    rw [huser]
  · intro hmagic
    rw [controller_process]
    by_cases h1 : (e.data.drop 5).length < 25
    · rw [if_pos h1]
    · rw [if_neg h1]
      by_cases h2 : (e.data.drop 5).getD 2 0 ≠ 22
      · rw [if_pos h2]
      · rw [if_neg h2, if_pos hmagic]

/-- Claim C4 amended witness: a well-formed deploy event whose salt is the
short string `alice`; the processor records `("alice", "0xcafe", 9)`. -/
theorem controller_process_spec_witness :
    controller_process
      ⟨1, [1], [0xCAFE, 0, 0, 0, 0, 0, 0, 22] ++ CARTRIDGE_MAGIC ++ [0x616c696365]⟩ 9 =
      .ok (some ⟨"alice",
        rustAltHex (([0xCAFE, 0, 0, 0, 0, 0, 0, 22] ++ CARTRIDGE_MAGIC ++
          [0x616c696365] : List Felt).headD 0), 9⟩) :=
  (controller_process_spec
      ⟨1, [1], [0xCAFE, 0, 0, 0, 0, 0, 0, 22] ++ CARTRIDGE_MAGIC ++ [0x616c696365]⟩ 9).1
    "alice" (by decide) (by decide) (by decide) (by decide)

/- ### C7: theorems -/

/-- Claim C7: for a StoreDelRecord event, `task_identifier` is the 64-bit hash
of `(keys[1], keys[2])` (model selector and entity id) and
`task_dependencies` is exactly the one-element list holding the hash of
`keys[1]`, which is the `RegisterModel` task id for the same model selector —
this holds for any streaming hasher. -/
theorem store_del_record_tasks {σ : Type} (H : FeltHasher σ) (e : Event)
    (_h : 2 < e.keys.length) :
    store_del_record_task_identifier H e =
      H.finish (H.write (H.write H.init (e.keys.getD 1 0)) (e.keys.getD 2 0)) ∧
    store_del_record_task_dependencies H e =
      [register_model_task_identifier H (e.keys.getD 1 0)] ∧
    (store_del_record_task_dependencies H e).length = 1 :=
  ⟨rfl, rfl, rfl⟩

/-- Claim C7 witness with a concrete polynomial hasher and keys `[5, 6, 7]`. -/
theorem store_del_record_tasks_witness :
    store_del_record_task_identifier
      (⟨0, fun s f => s * 31 + f, fun s => s⟩ : FeltHasher Nat) ⟨1, [5, 6, 7], []⟩ =
      (⟨0, fun s f => s * 31 + f, fun s => s⟩ : FeltHasher Nat).finish
        ((⟨0, fun s f => s * 31 + f, fun s => s⟩ : FeltHasher Nat).write
          ((⟨0, fun s f => s * 31 + f, fun s => s⟩ : FeltHasher Nat).write
            (⟨0, fun s f => s * 31 + f, fun s => s⟩ : FeltHasher Nat).init
            ((⟨1, [5, 6, 7], []⟩ : Event).keys.getD 1 0))
          ((⟨1, [5, 6, 7], []⟩ : Event).keys.getD 2 0)) ∧
    store_del_record_task_dependencies
      (⟨0, fun s f => s * 31 + f, fun s => s⟩ : FeltHasher Nat) ⟨1, [5, 6, 7], []⟩ =
      [register_model_task_identifier
        (⟨0, fun s f => s * 31 + f, fun s => s⟩ : FeltHasher Nat)
        ((⟨1, [5, 6, 7], []⟩ : Event).keys.getD 1 0)] ∧
    (store_del_record_task_dependencies
      (⟨0, fun s f => s * 31 + f, fun s => s⟩ : FeltHasher Nat) ⟨1, [5, 6, 7], []⟩).length = 1 :=
  store_del_record_tasks (⟨0, fun s f => s * 31 + f, fun s => s⟩ : FeltHasher Nat)
    ⟨1, [5, 6, 7], []⟩ (by decide)

/- ### C5: theorems -/

/-- Claim C5 failing input: cursor transaction `0xAA`, `to = 10`, and a
provider returning two pages: page one holds the cursor transaction's event
(block 1) with a continuation token, page two holds a fresh event of
transaction `0xBB` at block 2. The code returns no events at all — the skip
state is re-initialised at the second page and `0xAA` never reappears there —
while the claimed filter keeps the fresh `0xBB` event. -/
theorem fetch_events_drops_continuation_page :
    fetch_events_pages (some 0xAA) 10
      [⟨[⟨1, 0xAA, [], []⟩], some "t"⟩, ⟨[⟨2, 0xBB, [], []⟩], none⟩] = [] ∧
    claimed_event_filter (some 0xAA) 10 [⟨1, 0xAA, [], []⟩, ⟨2, 0xBB, [], []⟩] =
      [⟨2, 0xBB, [], []⟩] := by
  constructor
  · decide
  · decide

/- ### C6: helper lemmas and theorems -/

theorem deliver_event_snd {K : Type} (match_keys : List Felt → List K → Bool)
    (ev : EventRow) (y : Nat × EventSubscriber K) :
    (deliver_event match_keys ev y).2 = none ∨
    (deliver_event match_keys ev y).2 = some y.1 := by
  rcases htry : try_send y.2.sender (mk_event_response ev) with ⟨ch, err⟩
  unfold deliver_event
  rw [htry]
  split
  · left; rfl
  · cases err
    · left; rfl
    · right; rfl

/-- Claim C6: delivery to event subscribers uses non-blocking `try_send`; a
subscriber whose channel is full or closed receives nothing and is removed
from the table before the publish cycle ends, while any subscriber whose
clause matches and whose channel has room receives the published event. -/
theorem process_event_delivery {K : Type} (match_keys : List Felt → List K → Bool)
    (subs : List (Nat × EventSubscriber K)) (ev : EventRow)
    (id : Nat) (sub : EventSubscriber K)
    (hnodup : (subs.map Prod.fst).Nodup) (hmem : (id, sub) ∈ subs)
    (hmatch : match_keys ev.keys sub.keys = true) :
    ((sub.sender.closed = true ∨ sub.sender.capacity ≤ sub.sender.queue.length) →
      id ∉ (process_event match_keys subs ev).map Prod.fst) ∧
    (sub.sender.closed = false → sub.sender.queue.length < sub.sender.capacity →
      ((id, ⟨sub.keys, ⟨sub.sender.capacity,
          sub.sender.queue ++ [mk_event_response ev], sub.sender.closed⟩⟩) :
        Nat × EventSubscriber K) ∈ process_event match_keys subs ev) := by
  constructor
  · intro hcf hin
    have hstep : deliver_event match_keys ev (id, sub) = ((id, sub), some id) := by
      unfold deliver_event
      rw [if_neg (by rw [hmatch]; simp)]
      rcases hcf with hc | hf
      · rw [try_send, if_pos hc]
      · by_cases hc : sub.sender.closed = true
        · rw [try_send, if_pos hc]
        · rw [try_send, if_neg hc, if_pos hf]
    have hclosed_mem :
        id ∈ (subs.map (deliver_event match_keys ev)).filterMap Prod.snd := by
      apply List.mem_filterMap.mpr
      refine ⟨((id, sub), some id), ?_, rfl⟩
      rw [← hstep]
      exact List.mem_map_of_mem _ hmem
    simp only [process_event] at hin
    obtain ⟨e, he_mem, he_fst⟩ := List.mem_map.mp hin
    have := (List.mem_filter.mp he_mem).2
    rw [he_fst] at this
    simp only [Bool.not_eq_true', ← Bool.not_eq_true, List.elem_iff] at this
    exact this hclosed_mem
  · intro hopen hroom
    have hstep : deliver_event match_keys ev (id, sub) =
        ((id, ⟨sub.keys, ⟨sub.sender.capacity,
          sub.sender.queue ++ [mk_event_response ev], sub.sender.closed⟩⟩), none) := by
      unfold deliver_event
      rw [if_neg (by rw [hmatch]; simp)]
      rw [try_send, if_neg (by rw [hopen]; simp), if_neg (Nat.not_le.mpr hroom)]
    have hnotin :
        id ∉ (subs.map (deliver_event match_keys ev)).filterMap Prod.snd := by
      intro hidin
      obtain ⟨x, hx_mem, hx_eq⟩ := List.mem_filterMap.mp hidin
      obtain ⟨y, hy_mem, hy_eq⟩ := List.mem_map.mp hx_mem
      have hsnd := deliver_event_snd match_keys ev y
      rw [hy_eq, hx_eq] at hsnd
      rcases hsnd with h | h
      · exact Option.noConfusion h
      · have hy1 : y.1 = id := by
          have := Option.some.inj h
          omega
        have hy_eq_pair : y = (id, sub) := by
          apply List.inj_on_of_nodup_map hnodup hy_mem hmem
          simpa using hy1
        rw [hy_eq_pair, hstep] at hy_eq
        rw [← hy_eq] at hx_eq
        exact Option.noConfusion hx_eq
    simp only [process_event]
    apply List.mem_filter.mpr
    constructor
    · apply List.mem_map.mpr
      refine ⟨((id, ⟨sub.keys, ⟨sub.sender.capacity,
          sub.sender.queue ++ [mk_event_response ev], sub.sender.closed⟩⟩), none), ?_, rfl⟩
      rw [← hstep]
      exact List.mem_map_of_mem _ hmem
    · simp only [Bool.not_eq_true', ← Bool.not_eq_true, List.elem_iff]
      simpa using hnotin

/-- Claim C6 witness: a matching subscriber with a full channel (capacity 0)
is removed by the publish cycle. -/
theorem process_event_delivery_witness :
    (1 : Nat) ∉ (process_event (fun _ _ => true)
      [(1, (⟨([] : List Unit), ⟨0, [], false⟩⟩ : EventSubscriber Unit))]
      ⟨[2], [3], 4⟩).map Prod.fst :=
  (process_event_delivery (fun _ _ => true)
      [(1, (⟨([] : List Unit), ⟨0, [], false⟩⟩ : EventSubscriber Unit))]
      ⟨[2], [3], 4⟩ 1 ⟨[], ⟨0, [], false⟩⟩
      (by simp) (by simp) rfl).1 (Or.inr (by simp))

/- ### C8: theorems -/

/-- Claim C8: when the token URI cannot be fetched (all three entry points
fail) or the fetched URI's metadata fails (unsupported scheme, bad or
non-JSON MIME type, invalid base64, unparsable JSON, failed content fetch),
`fetch_token_metadata` returns `Ok("")` — an empty metadata string, never an
error — so the enclosing transfer processing continues. -/
theorem fetch_token_metadata_degrades (w : MetadataWorld) (token_id : Nat) :
    (w.call_token_uri = none → w.call_tokenURI = none → w.call_uri = none →
      fetch_token_metadata w token_id = .ok "") ∧
    (∀ (uri : String) (e : TokenMetadataError),
      fetch_token_uri w token_id = .ok uri →
      fetch_metadata w uri = .error e →
      fetch_token_metadata w token_id = .ok "") := by
  constructor
  · intro h1 h2 h3
    rw [fetch_token_metadata, fetch_token_uri, h1, h2, h3]
    rfl
  · intro uri e huri hmeta
    by_cases hempty : uri = ""
    · simp only [fetch_token_metadata, huri]
      rw [if_pos hempty]
    · simp only [fetch_token_metadata, huri]
      rw [if_neg hempty, hmeta]

/-- Claim C8 witness: a data URI whose MIME type is `text/plain` degrades to
empty metadata. -/
theorem fetch_token_metadata_degrades_witness :
    fetch_token_metadata metadata_world_bad_mime 5 = .ok "" :=
  (fetch_token_metadata_degrades metadata_world_bad_mime 5).2 "data:junk"
    (.invalidMimeType "text/plain") rfl rfl

/- ### C9: helper lemmas and theorems -/

theorem deliver_entity_snd {C M : Type} [Inhabited M]
    (me : Felt → List Felt → Option M → C → Bool) (ent : OptimisticEntity M)
    (y : Nat × EntitiesSubscriber C M) :
    (deliver_entity me ent y).2 = none ∨ (deliver_entity me ent y).2 = some y.1 := by
  rcases hsend : send_await y.2.sender (mk_entity_response ent y.1) with ⟨ch, ok⟩
  unfold deliver_entity
  rw [hsend]
  split
  · left; rfl
  · cases ok
    · right; rfl
    · left; rfl

/-- Claim C9: a published `OptimisticEntity` with `deleted = true` is
delivered to every subscriber whose clause matches (or who has no clause)
and whose channel is still open, as a `SubscribeEntityResponse` whose entity
carries the 32-byte hashed keys, an empty model list, `is_deleted = true`,
and the entity's event id and timestamps. -/
theorem process_entity_deleted {C M : Type} [Inhabited M]
    (me : Felt → List Felt → Option M → C → Bool)
    (subs : List (Nat × EntitiesSubscriber C M)) (ent : OptimisticEntity M)
    (id : Nat) (sub : EntitiesSubscriber C M)
    (hnodup : (subs.map Prod.fst).Nodup) (hmem : (id, sub) ∈ subs)
    (hdel : ent.deleted = true)
    (hmatch : sub.clause = none ∨
      ∃ cl, sub.clause = some cl ∧ me ent.id ent.keys ent.updated_model cl = true)
    (hopen : sub.sender.closed = false) :
    ((id, ⟨sub.clause, ⟨sub.sender.capacity,
        sub.sender.queue ++ [⟨some ⟨feltBytesBE ent.id, [], ent.event_id,
          ent.executed_at, ent.created_at, ent.updated_at, true⟩, id⟩],
        sub.sender.closed⟩⟩) : Nat × EntitiesSubscriber C M) ∈
      process_entity_update me subs ent := by
  have hresp : mk_entity_response ent id =
      ⟨some ⟨feltBytesBE ent.id, [], ent.event_id, ent.executed_at, ent.created_at,
        ent.updated_at, true⟩, id⟩ := by
    rw [mk_entity_response, if_pos hdel]
  have hguard : (match sub.clause with
      | some cl => me ent.id ent.keys ent.updated_model cl
      | none => true) = true := by
    rcases hmatch with h | ⟨cl, hcl, hm⟩
    · rw [h]
    · rw [hcl]; exact hm
  have hstep : deliver_entity me ent (id, sub) =
      ((id, ⟨sub.clause, ⟨sub.sender.capacity,
        sub.sender.queue ++ [⟨some ⟨feltBytesBE ent.id, [], ent.event_id,
          ent.executed_at, ent.created_at, ent.updated_at, true⟩, id⟩],
        sub.sender.closed⟩⟩), none) := by
    unfold deliver_entity
    rw [if_neg (by rw [hguard]; simp)]
    rw [send_await, if_neg (by rw [hopen]; simp), hresp]
  have hnotin :
      id ∉ (subs.map (deliver_entity me ent)).filterMap Prod.snd := by
    intro hidin
    obtain ⟨x, hx_mem, hx_eq⟩ := List.mem_filterMap.mp hidin
    obtain ⟨y, hy_mem, hy_eq⟩ := List.mem_map.mp hx_mem
    have hsnd := deliver_entity_snd me ent y
    rw [hy_eq, hx_eq] at hsnd
    rcases hsnd with h | h
    · exact Option.noConfusion h
    · have hy1 : y.1 = id := by
        have := Option.some.inj h
        omega
      have hy_eq_pair : y = (id, sub) := by
        apply List.inj_on_of_nodup_map hnodup hy_mem hmem
        simpa using hy1
      rw [hy_eq_pair, hstep] at hy_eq
      rw [← hy_eq] at hx_eq
      exact Option.noConfusion hx_eq
  simp only [process_entity_update]
  apply List.mem_filter.mpr
  constructor
  · apply List.mem_map.mpr
    refine ⟨((id, ⟨sub.clause, ⟨sub.sender.capacity,
        sub.sender.queue ++ [⟨some ⟨feltBytesBE ent.id, [], ent.event_id,
          ent.executed_at, ent.created_at, ent.updated_at, true⟩, id⟩],
        sub.sender.closed⟩⟩), none), ?_, rfl⟩
    rw [← hstep]
    exact List.mem_map_of_mem _ hmem
  · simp only [Bool.not_eq_true', ← Bool.not_eq_true, List.elem_iff]
    simpa using hnotin

/-- Claim C9 witness: one clause-free subscriber with an open channel
receives the deleted-entity payload. -/
theorem process_entity_deleted_witness :
    ((2, ⟨(none : Option Unit), ⟨4,
        [⟨some ⟨feltBytesBE 9, [], "e", 1, 2, 3, true⟩, 2⟩], false⟩⟩) :
      Nat × EntitiesSubscriber Unit Unit) ∈
      process_entity_update (fun _ _ _ _ => true)
        [(2, ⟨none, ⟨4, [], false⟩⟩)]
        (⟨9, [], none, true, "e", 1, 2, 3⟩ : OptimisticEntity Unit) :=
  process_entity_deleted (fun _ _ _ _ => true)
    [(2, ⟨none, ⟨4, [], false⟩⟩)] ⟨9, [], none, true, "e", 1, 2, 3⟩
    2 ⟨none, ⟨4, [], false⟩⟩ (by simp) (by simp) rfl (Or.inl rfl) rfl

/- ### C10: helper lemmas and theorems -/

theorem hexCharsRec_head_ne_zero : ∀ n : Nat, n ≠ 0 → (hexCharsRec n).head? ≠ some '0' := by
  intro n
  induction n using Nat.strong_induction_on with
  | _ n ih =>
    intro hn
    rw [hexCharsRec]
    split
    · rename_i h
      simp only [List.head?_cons]
      intro hc
      have hd : hexDigit n = '0' := Option.some.inj hc
      interval_cases n
      · exact hn rfl
      all_goals exact absurd hd (by decide)
    · rename_i h
      have hdivne : n / 16 ≠ 0 := by
        have : 1 ≤ n / 16 := (Nat.one_le_div_iff (by omega)).mpr (by omega)
        omega
      have hlt : n / 16 < n := Nat.div_lt_self (by omega) (by omega)
      have hih := ih (n / 16) hlt hdivne
      cases hc : hexCharsRec (n / 16) with
      | nil =>
        rw [← hexChars_eq_rec] at hc
        exact absurd hc (hexChars_ne_nil _)
      | cons a t =>
        rw [hc] at hih
        simp only [List.head?_cons] at hih
        simp only [List.cons_append, List.head?_cons]
        exact hih

theorem hexChars_head_ne_zero (n : Nat) (hn : n ≠ 0) : (hexChars n).head? ≠ some '0' := by
  rw [hexChars_eq_rec]
  exact hexCharsRec_head_ne_zero n hn

theorem rustAltHexChars_zero_width (n : Nat) : rustAltHexChars 0 n = '0' :: 'x' :: hexChars n := by
  simp [rustAltHexChars, Nat.zero_sub]

theorem key_ne_zero_key (a : Felt) (ha : a ≠ 0) (tail rest : String) :
    felt_to_sql_string a ++ SQL_FELT_DELIMITER ++ tail ≠
      felt_to_sql_string 0 ++ SQL_FELT_DELIMITER ++ rest := by
  intro heq
  have hdata : (felt_to_sql_string a ++ SQL_FELT_DELIMITER ++ tail).data =
      (felt_to_sql_string 0 ++ SQL_FELT_DELIMITER ++ rest).data := by rw [heq]
  have hL : (felt_to_sql_string a ++ SQL_FELT_DELIMITER ++ tail).data =
      '0' :: 'x' :: (hexChars a ++ '/' :: tail.data) := by
    show ((rustAltHex a ++ "/") ++ tail).data = _
    rw [String.data_append, String.data_append]
    show ((rustAltHexChars 0 a ++ ['/']) ++ tail.data) = _
    rw [rustAltHexChars_zero_width]
    simp
  have hR : (felt_to_sql_string 0 ++ SQL_FELT_DELIMITER ++ rest).data =
      '0' :: 'x' :: ('0' :: '/' :: rest.data) := by
    show ((rustAltHex 0 ++ "/") ++ rest).data = _
    rw [String.data_append, String.data_append]
    show ((rustAltHexChars 0 0 ++ ['/']) ++ rest.data) = _
    rw [rustAltHexChars_zero_width]
    have h0 : hexChars 0 = ['0'] := rfl
    rw [h0]
    simp
  rw [hL, hR] at hdata
  have hmid : hexChars a ++ '/' :: tail.data = '0' :: '/' :: rest.data := by
    have := List.cons.inj hdata
    have := List.cons.inj this.2
    exact this.2
  cases hac : hexChars a with
  | nil => exact absurd hac (hexChars_ne_nil a)
  | cons b t =>
    rw [hac] at hmid
    simp only [List.cons_append] at hmid
    have hb : b = '0' := (List.cons.inj hmid).1
    have hhead := hexChars_head_ne_zero a ha
    rw [hac] at hhead
    simp only [List.head?_cons] at hhead
    exact hhead (by rw [hb])

theorem cache_lookup_add_ne (c : ErcCache) (k zk : String) (v : Int) (h : k ≠ zk) :
    cache_lookup (cache_add c k v) zk = cache_lookup c zk := by
  induction c with
  | nil => simp [cache_add, cache_lookup, h]
  | cons e rest ih =>
    rw [cache_add]
    by_cases he : e.1 = k
    · rw [if_pos he]
      rw [cache_lookup, cache_lookup]
      rw [if_neg (by rw [he]; exact h), if_neg (by rw [he]; exact h)]
    · rw [if_neg he]
      rw [cache_lookup, cache_lookup]
      by_cases hez : e.1 = zk
      · rw [if_pos hez, if_pos hez]
      · rw [if_neg hez, if_neg hez]
        exact ih

/-- Claim C10: `handle_erc20_transfer` and `handle_nft_transfer` never touch
a balance cache entry whose address segment is the zero address: when the
sender is zero only the recipient's delta is increased, when the recipient
is zero only the sender's delta is decreased, otherwise the sender's delta
is decreased and the recipient's increased by the same amount, and the delta
recorded under any zero-address key is left unchanged. -/
theorem erc_transfer_cache_no_zero_key (contract fa ta : Felt) (token_id : Nat)
    (amount : Int) (c : ErcCache) (rest : String) :
    (fa = 0 → ta ≠ 0 → handle_erc20_transfer_cache contract fa ta amount c =
      cache_add c (felts_to_sql_string [ta, contract]) amount) ∧
    (ta = 0 → fa ≠ 0 → handle_erc20_transfer_cache contract fa ta amount c =
      cache_add c (felts_to_sql_string [fa, contract]) (-amount)) ∧
    (fa ≠ 0 → ta ≠ 0 → handle_erc20_transfer_cache contract fa ta amount c =
      cache_add (cache_add c (felts_to_sql_string [fa, contract]) (-amount))
        (felts_to_sql_string [ta, contract]) amount) ∧
    cache_lookup (handle_erc20_transfer_cache contract fa ta amount c)
      (felt_to_sql_string 0 ++ SQL_FELT_DELIMITER ++ rest) =
      cache_lookup c (felt_to_sql_string 0 ++ SQL_FELT_DELIMITER ++ rest) ∧
    (fa = 0 → ta ≠ 0 → handle_nft_transfer_cache contract fa ta token_id amount c =
      cache_add c (felt_to_sql_string ta ++ SQL_FELT_DELIMITER ++
        felt_and_u256_to_sql_string contract token_id) amount) ∧
    (ta = 0 → fa ≠ 0 → handle_nft_transfer_cache contract fa ta token_id amount c =
      cache_add c (felt_to_sql_string fa ++ SQL_FELT_DELIMITER ++
        felt_and_u256_to_sql_string contract token_id) (-amount)) ∧
    (fa ≠ 0 → ta ≠ 0 → handle_nft_transfer_cache contract fa ta token_id amount c =
      cache_add (cache_add c (felt_to_sql_string fa ++ SQL_FELT_DELIMITER ++
          felt_and_u256_to_sql_string contract token_id) (-amount))
        (felt_to_sql_string ta ++ SQL_FELT_DELIMITER ++
          felt_and_u256_to_sql_string contract token_id) amount) ∧
    cache_lookup (handle_nft_transfer_cache contract fa ta token_id amount c)
      (felt_to_sql_string 0 ++ SQL_FELT_DELIMITER ++ rest) =
      cache_lookup c (felt_to_sql_string 0 ++ SQL_FELT_DELIMITER ++ rest) := by
  refine ⟨?_, ?_, ?_, ?_, ?_, ?_, ?_, ?_⟩
  · intro h1 h2
    simp only [handle_erc20_transfer_cache]
    rw [if_pos h2, if_neg (fun hcon => hcon h1)]
  · intro h1 h2
    simp only [handle_erc20_transfer_cache]
    rw [if_pos h2, if_neg (fun hcon => hcon h1)]
  · intro h1 h2
    simp only [handle_erc20_transfer_cache]
    rw [if_pos h1, if_pos h2]
  · simp only [handle_erc20_transfer_cache]
    by_cases hta : ta = 0
    · rw [if_neg (fun hcon => hcon hta)]
      by_cases hfa : fa = 0
      · rw [if_neg (fun hcon => hcon hfa)]
      · rw [if_pos hfa]
        exact cache_lookup_add_ne _ _ _ _ (key_ne_zero_key fa hfa _ rest)
    · rw [if_pos hta]
      by_cases hfa : fa = 0
      · rw [if_neg (fun hcon => hcon hfa)]
        exact cache_lookup_add_ne _ _ _ _ (key_ne_zero_key ta hta _ rest)
      · rw [if_pos hfa]
        exact (cache_lookup_add_ne _ _ _ _ (key_ne_zero_key ta hta _ rest)).trans
          (cache_lookup_add_ne _ _ _ _ (key_ne_zero_key fa hfa _ rest))
  · intro h1 h2
    simp only [handle_nft_transfer_cache]
    rw [if_pos h2, if_neg (fun hcon => hcon h1)]
  · intro h1 h2
    simp only [handle_nft_transfer_cache]
    rw [if_pos h2, if_neg (fun hcon => hcon h1)]
  · intro h1 h2
    simp only [handle_nft_transfer_cache]
    rw [if_pos h1, if_pos h2]
  · simp only [handle_nft_transfer_cache]
    by_cases hta : ta = 0
    · rw [if_neg (fun hcon => hcon hta)]
      by_cases hfa : fa = 0
      · rw [if_neg (fun hcon => hcon hfa)]
      · rw [if_pos hfa]
        exact cache_lookup_add_ne _ _ _ _ (key_ne_zero_key fa hfa _ rest)
    · rw [if_pos hta]
      by_cases hfa : fa = 0
      · rw [if_neg (fun hcon => hcon hfa)]
        exact cache_lookup_add_ne _ _ _ _ (key_ne_zero_key ta hta _ rest)
      · rw [if_pos hfa]
        exact (cache_lookup_add_ne _ _ _ _ (key_ne_zero_key ta hta _ rest)).trans
          (cache_lookup_add_ne _ _ _ _ (key_ne_zero_key fa hfa _ rest))

/-- Claim C10 witness: a transfer between the nonzero addresses 1 and 2
touches exactly their two keys and leaves every zero-address key alone. -/
theorem erc_transfer_cache_no_zero_key_witness :
    handle_erc20_transfer_cache 7 1 2 3 [] =
      cache_add (cache_add [] (felts_to_sql_string [1, 7]) (-3))
        (felts_to_sql_string [2, 7]) 3 ∧
    cache_lookup (handle_erc20_transfer_cache 7 1 2 3 [])
      (felt_to_sql_string 0 ++ SQL_FELT_DELIMITER ++ "r") =
      cache_lookup [] (felt_to_sql_string 0 ++ SQL_FELT_DELIMITER ++ "r") :=
  ⟨(erc_transfer_cache_no_zero_key 7 1 2 5 3 [] "r").2.2.1 (by decide) (by decide),
   (erc_transfer_cache_no_zero_key 7 1 2 5 3 [] "r").2.2.2.1⟩
